import Mathlib

/-!
# Verification of the E-commerce UK Retailer Dashboard data layer

A shallow embedding of `scripts/DataProcessor.py` and of the time-series
preparation in `scripts/Dashboard_Ecommerce.py`, together with theorems
settling the frozen claims about the repository.

Modelling conventions:
* CSV rows after typed scanning (`pl.scan_csv` with `ignore_errors=True`,
  which nulls out unparseable typed fields) are `RawRow`s whose fields are
  `Option`-valued; `drop_nulls()` keeps exactly the rows with every field
  present (`RawRow.toInput?`).
* Python `float` columns (`UnitPrice`, `Revenue`) are modelled as `Rat`,
  `i64` columns as `Int`, string columns as `String`.
* `datetime.strptime` for the two concrete formats used by the code is
  modelled by `parseFmt1` / `parseFmt2`: each numeric field may take one or
  two digits (greedy, with the one-digit fallback, mirroring the regexes
  `_strptime` builds), `%Y` takes exactly four digits, the whole string must
  be consumed, and the resulting field values must form a valid
  `datetime` (month/day/hour/minute/second ranges, month lengths, leap
  years).
* The polars left join of the base frame with the per-row parsed-dates
  frame on the `InvoiceDate` string is modelled by `leftJoinDates`: each
  left row produces one output row per matching right row (or one
  null-filled row when there is no match), exactly the relational
  semantics of `join(..., how="left")`.
* `group_by(k).agg(sum)` groups by key value — polars keeps a null key as
  its own group — and is modelled by `groupSum` (distinct keys in first
  occurrence order, each paired with the sum over its rows); the
  subsequent `sort` is modelled by `List.insertionSort` with the
  corresponding key order (`sort` defaults put nulls first).  Group
  enumeration order before the sort is unspecified in polars; the theorems
  proved about query results (membership, sums, sortedness, length) are
  insensitive to that order.
* Python exceptions are modelled with `Except`: the only failure the
  queries can hit is the division by zero in `total_revenue_vs_country`.
-/

set_option maxRecDepth 10000

namespace ECom

/-! ## Timestamps and calendar dates -/

/-- A parsed timestamp (the payload of the `DateTime` column). -/
structure DateTimeRec where
  year : Nat
  month : Nat
  day : Nat
  hour : Nat
  minute : Nat
  second : Nat
deriving DecidableEq, Repr

/-- A calendar date (the payload of the `Date` column). -/
structure DateRec where
  year : Nat
  month : Nat
  day : Nat
deriving DecidableEq, Repr

/-- Model of `datetime.date()`: drop the time-of-day part. -/
def DateTimeRec.toDate (dt : DateTimeRec) : DateRec :=
  ⟨dt.year, dt.month, dt.day⟩

def digitVal (c : Char) : Nat := c.toNat - 48

/-- Read one or two digits, greedily, with the one-digit fallback, as the
`_strptime` regexes for `%m`, `%d`, `%H`, `%M`, `%S` do. -/
def readNum2 : List Char → List (Nat × List Char)
  | c1 :: c2 :: rest =>
    if c1.isDigit && c2.isDigit then
      [(digitVal c1 * 10 + digitVal c2, rest), (digitVal c1, c2 :: rest)]
    else if c1.isDigit then [(digitVal c1, c2 :: rest)]
    else []
  | [c1] => if c1.isDigit then [(digitVal c1, [])] else []
  | [] => []

/-- Read exactly four digits (`%Y`). -/
def readNum4 : List Char → List (Nat × List Char)
  | c1 :: c2 :: c3 :: c4 :: rest =>
    if c1.isDigit && c2.isDigit && c3.isDigit && c4.isDigit then
      [(((digitVal c1 * 10 + digitVal c2) * 10 + digitVal c3) * 10 + digitVal c4, rest)]
    else []
  | _ => []

/-- Consume one expected literal character of the format. -/
def expectChar (c : Char) : List Char → List (List Char)
  | x :: rest => if x == c then [rest] else []
  | [] => []

def isLeapYear (y : Nat) : Bool :=
  (y % 4 == 0 && y % 100 != 0) || y % 400 == 0

def daysInMonth (y m : Nat) : Nat :=
  if m = 2 then (if isLeapYear y then 29 else 28)
  else if m = 4 ∨ m = 6 ∨ m = 9 ∨ m = 11 then 30
  else 31

/-- The validation `datetime(...)` performs on the captured fields. -/
def validDateTime (dt : DateTimeRec) : Bool :=
  decide (1 ≤ dt.year ∧ 1 ≤ dt.month ∧ dt.month ≤ 12 ∧ 1 ≤ dt.day ∧
    dt.day ≤ daysInMonth dt.year dt.month ∧ dt.hour ≤ 23 ∧
    dt.minute ≤ 59 ∧ dt.second ≤ 59)

/-- All structural parses of `"%m/%d/%Y %H:%M"`, in regex backtracking order. -/
def fmt1Cands (cs : List Char) : List DateTimeRec :=
  (readNum2 cs).flatMap fun p1 =>
  (expectChar '/' p1.2).flatMap fun r2 =>
  (readNum2 r2).flatMap fun p2 =>
  (expectChar '/' p2.2).flatMap fun r4 =>
  (readNum4 r4).flatMap fun p3 =>
  (expectChar ' ' p3.2).flatMap fun r6 =>
  (readNum2 r6).flatMap fun p4 =>
  (expectChar ':' p4.2).flatMap fun r8 =>
  (readNum2 r8).flatMap fun p5 =>
  if p5.2.isEmpty then [⟨p3.1, p1.1, p2.1, p4.1, p5.1, 0⟩] else []

/-- All structural parses of `"%Y-%m-%d %H:%M:%S"`, in regex backtracking order. -/
def fmt2Cands (cs : List Char) : List DateTimeRec :=
  (readNum4 cs).flatMap fun p1 =>
  (expectChar '-' p1.2).flatMap fun r2 =>
  (readNum2 r2).flatMap fun p2 =>
  (expectChar '-' p2.2).flatMap fun r4 =>
  (readNum2 r4).flatMap fun p3 =>
  (expectChar ' ' p3.2).flatMap fun r6 =>
  (readNum2 r6).flatMap fun p4 =>
  (expectChar ':' p4.2).flatMap fun r8 =>
  (readNum2 r8).flatMap fun p5 =>
  (expectChar ':' p5.2).flatMap fun r10 =>
  (readNum2 r10).flatMap fun p6 =>
  if p6.2.isEmpty then [⟨p1.1, p2.1, p3.1, p4.1, p5.1, p6.1⟩] else []

/-- Model of `datetime.strptime(s, "%m/%d/%Y %H:%M")`, as an `Option`. -/
def parseFmt1 (s : String) : Option DateTimeRec :=
  ((fmt1Cands s.data).filter validDateTime).head?

/-- Model of `datetime.strptime(s, "%Y-%m-%d %H:%M:%S")`, as an `Option`. -/
def parseFmt2 (s : String) : Option DateTimeRec :=
  ((fmt2Cands s.data).filter validDateTime).head?

/-- The fixed, ordered format list the `for fmt in (...)` loop tries. -/
def strptimeFormats : List (String → Option DateTimeRec) :=
  [parseFmt1, parseFmt2]

/-- First successful format wins; `none` when every format fails
(the `dt = None` that survives the loop). -/
def tryFormats : List (String → Option DateTimeRec) → String → Option DateTimeRec
  | [], _ => none
  | f :: fs, s =>
    match f s with
    | some d => some d
    | none => tryFormats fs s

/-- The per-value parsing loop of `DataProcessor._read_csv`. -/
def parseInvoiceDate (s : String) : Option DateTimeRec :=
  tryFormats strptimeFormats s

/-! ## Rows and the base table -/

/-- A row as scanned by `pl.scan_csv` with the schema overrides: every field
may still be null before `drop_nulls()` runs. -/
structure RawRow where
  invoiceNo : Option String
  stockCode : Option String
  description : Option String
  quantity : Option Int
  invoiceDate : Option String
  unitPrice : Option Rat
  customerID : Option String
  country : Option String
deriving DecidableEq, Repr

/-- A fully populated input row (what survives `drop_nulls()`). -/
structure InputRow where
  invoiceNo : String
  stockCode : String
  description : String
  quantity : Int
  invoiceDate : String
  unitPrice : Rat
  customerID : String
  country : String
deriving DecidableEq, Repr

/-- The `drop_nulls()` step keeps a row exactly when every column is non-null. -/
def RawRow.toInput? (r : RawRow) : Option InputRow :=
  match r.invoiceNo, r.stockCode, r.description, r.quantity,
      r.invoiceDate, r.unitPrice, r.customerID, r.country with
  | some a, some b, some c, some d, some e, some f, some g, some h =>
    some ⟨a, b, c, d, e, f, g, h⟩
  | _, _, _, _, _, _, _, _ => none

/-- The rows of `df_scan` after `drop_nulls()`. -/
def keptRows (raws : List RawRow) : List InputRow :=
  raws.filterMap RawRow.toInput?

/-- A row of the base table `df_lazy`, with the derived columns attached. -/
structure Row where
  invoiceNo : String
  stockCode : String
  description : String
  quantity : Int
  invoiceDate : String
  unitPrice : Rat
  customerID : String
  country : String
  dateTime : Option DateTimeRec
  date : Option DateRec
  revenue : Rat
deriving DecidableEq, Repr

/-- Attach the joined date columns and the `Revenue` column
(`Quantity * UnitPrice`). -/
def mkRow (r : InputRow) (dt : Option DateTimeRec) : Row :=
  { invoiceNo := r.invoiceNo
    stockCode := r.stockCode
    description := r.description
    quantity := r.quantity
    invoiceDate := r.invoiceDate
    unitPrice := r.unitPrice
    customerID := r.customerID
    country := r.country
    dateTime := dt
    date := dt.map DateTimeRec.toDate
    revenue := (r.quantity : Rat) * r.unitPrice }

/-- The `dates_df` frame: one `(InvoiceDate, DateTime)` row per kept input
row, duplicates included. -/
def datesTable (inputs : List InputRow) : List (String × Option DateTimeRec) :=
  inputs.map fun r => (r.invoiceDate, parseInvoiceDate r.invoiceDate)

/-- Model of `df_scan.join(dates_df.lazy(), on="InvoiceDate", how="left")`: each left
row pairs with every right row carrying the same `InvoiceDate` string, or
with a null fill when no right row matches. -/
def leftJoinDates (inputs : List InputRow)
    (dates : List (String × Option DateTimeRec)) : List Row :=
  inputs.flatMap fun r =>
    if (dates.filter fun p => decide (p.1 = r.invoiceDate)).isEmpty then [mkRow r none]
    else (dates.filter fun p => decide (p.1 = r.invoiceDate)).map fun p => mkRow r p.2

/-- The base table `df_lazy` built by `DataProcessor._read_csv`. -/
def baseTable (raws : List RawRow) : List Row :=
  leftJoinDates (keptRows raws) (datesTable (keptRows raws))

/-! ## Sales / returns partition -/

/-- Model of `pl.col("InvoiceNo").str.starts_with("C")`. -/
def startsWithC (s : String) : Bool :=
  match s.data with
  | [] => false
  | c :: _ => c == 'C'

/-- Model of `pl.col("InvoiceNo").str.replace("^C", "")`: strip one leading return
marker (the regex replaces the first match of `^C`). -/
def stripReturnMarker (s : String) : String :=
  match s.data with
  | c :: rest => if c == 'C' then String.mk rest else s
  | [] => s

/-- The `returns_only` view: return rows reduced to their
`(OriginalInvoiceNo, StockCode, CustomerID)` triple. -/
def returnsOnly (raws : List RawRow) : List (String × String × String) :=
  ((baseTable raws).filter fun r => startsWithC r.invoiceNo).map fun r =>
    (stripReturnMarker r.invoiceNo, r.stockCode, r.customerID)

/-- The `sales_only` view: non-return rows, anti-joined against
`returns_only` on `(InvoiceNo, StockCode, CustomerID)`. -/
def salesOnly (raws : List RawRow) : List Row :=
  ((baseTable raws).filter fun r => !startsWithC r.invoiceNo).filter
    fun r => !(decide ((r.invoiceNo, r.stockCode, r.customerID) ∈ returnsOnly raws))

/-! ## Grouping, ordering, queries -/

/-- Model of `group_by(key).agg(val.sum())`: one output pair per distinct key value
(null keys included), carrying the sum of `val` over the key's rows. -/
def groupSum {α κ μ : Type} [DecidableEq κ] [Add μ] [Zero μ]
    (key : α → κ) (val : α → μ) (rows : List α) : List (κ × μ) :=
  ((rows.map key).dedup).map fun k =>
    (k, ((rows.filter fun r => decide (key r = k)).map val).sum)

/-- Calendar order on dates, lexicographic on (year, month, day). -/
def DateRec.ble (a b : DateRec) : Bool :=
  decide (a.year < b.year ∨ (a.year = b.year ∧ (a.month < b.month ∨
    (a.month = b.month ∧ a.day ≤ b.day))))

/-- The `sort("Date")` order on nullable dates: nulls first (the polars
default), then calendar order. -/
def odateBLE : Option DateRec → Option DateRec → Bool
  | none, _ => true
  | some _, none => false
  | some a, some b => a.ble b

/-- Row order used by `sort("Date")` on grouped quantity frames. -/
def dateRowLE (a b : Option DateRec × Int) : Prop :=
  odateBLE a.1 b.1 = true

instance : DecidableRel dateRowLE :=
  fun a b => instDecidableEqBool (odateBLE a.1 b.1) true

/-- Row order used by `sort("Revenue", descending=True)` on grouped revenue
frames. -/
def revDescLE (a b : String × Rat) : Prop :=
  b.2 ≤ a.2

instance : DecidableRel revDescLE := fun a b => Rat.instDecidableLe b.2 a.2

/-- Model of `get_country_quantity`: sales-only rows of (country, product), grouped
by `Date`, quantity summed, sorted ascending by date. -/
def get_country_quantity (raws : List RawRow) (country product : String) :
    List (Option DateRec × Int) :=
  ((groupSum Row.date Row.quantity
      ((salesOnly raws).filter fun r =>
        decide (r.country = country ∧ r.description = product))).insertionSort
    dateRowLE)

/-- Model of `get_global_quantity`: the same grouping over all other countries,
restricted to the date list of the focal country's series.  The
`Date.is_in(country_dates)` filter is modelled as plain membership on
nullable dates; polars' null handling in `is_in` varies across versions,
but either choice only shrinks the filtered set within `country_dates`, so
the properties proved below hold under both. -/
def get_global_quantity (raws : List RawRow) (country product : String) :
    List (Option DateRec × Int) :=
  let countryDates := (get_country_quantity raws country product).map Prod.fst
  ((groupSum Row.date Row.quantity
      ((salesOnly raws).filter fun r =>
        decide (¬r.country = country ∧ r.description = product ∧
          r.date ∈ countryDates))).insertionSort dateRowLE)

/-- Model of `revenue_per_article_per_country`: sales-only rows of the country,
grouped by description, revenue summed, sorted descending, head 15. -/
def revenue_per_article_per_country (raws : List RawRow) (country : String) :
    List (String × Rat) :=
  ((groupSum Row.description Row.revenue
      ((salesOnly raws).filter fun r => decide (r.country = country))).insertionSort
    revDescLE).take 15

/-! ## Order instances for the two sorts -/

theorem odateBLE_total (x y : Option DateRec) :
    odateBLE x y = true ∨ odateBLE y x = true := by
  cases x with
  | none => exact Or.inl rfl
  | some a =>
    cases y with
    | none => exact Or.inr rfl
    | some b =>
      simp only [odateBLE, DateRec.ble, decide_eq_true_eq]
      omega

theorem odateBLE_trans (x y z : Option DateRec) (hxy : odateBLE x y = true)
    (hyz : odateBLE y z = true) : odateBLE x z = true := by
  cases x with
  | none => rfl
  | some a =>
    cases y with
    | none => simp [odateBLE] at hxy
    | some b =>
      cases z with
      | none => simp [odateBLE] at hyz
      | some c =>
        simp only [odateBLE, DateRec.ble, decide_eq_true_eq] at hxy hyz ⊢
        omega

instance : IsTotal (Option DateRec × Int) dateRowLE :=
  ⟨fun a b => odateBLE_total a.1 b.1⟩

instance : IsTrans (Option DateRec × Int) dateRowLE :=
  ⟨fun a b c => odateBLE_trans a.1 b.1 c.1⟩

instance : IsTotal (String × Rat) revDescLE :=
  ⟨fun a b => le_total b.2 a.2⟩

instance : IsTrans (String × Rat) revDescLE :=
  ⟨fun _ _ _ h h2 => le_trans h2 h⟩

/-! ## Generic lemmas about `groupSum` -/

theorem mem_groupSum {α κ μ : Type} [DecidableEq κ] [Add μ] [Zero μ]
    {key : α → κ} {val : α → μ} {rows : List α} {k : κ} {v : μ} :
    (k, v) ∈ groupSum key val rows ↔
      ((∃ r ∈ rows, key r = k) ∧
        v = ((rows.filter fun r => decide (key r = k)).map val).sum) := by
  unfold groupSum
  rw [List.mem_map]
  constructor
  · rintro ⟨a, ha, heq⟩
    rw [List.mem_dedup, List.mem_map] at ha
    obtain ⟨r, hr, hk⟩ := ha
    obtain ⟨rfl, rfl⟩ := Prod.mk.injEq .. ▸ heq
    exact ⟨⟨r, hr, hk⟩, rfl⟩
  · rintro ⟨⟨r, hr, hk⟩, rfl⟩
    refine ⟨k, ?_, rfl⟩
    rw [List.mem_dedup, List.mem_map]
    exact ⟨r, hr, hk⟩

/-! ## Structural lemmas about the base table -/

/-- A kept row came from a raw row in which every input column was
non-null, with exactly the kept row's values. -/
theorem toInput_fields {rr : RawRow} {r : InputRow} (h : rr.toInput? = some r) :
    rr = ⟨some r.invoiceNo, some r.stockCode, some r.description, some r.quantity,
      some r.invoiceDate, some r.unitPrice, some r.customerID, some r.country⟩ := by
  obtain ⟨a, b, c, d, e, f, g, k⟩ := rr
  cases a <;> cases b <;> cases c <;> cases d <;> cases e <;> cases f <;> cases g <;> cases k <;>
    simp_all [RawRow.toInput?]
  subst h
  simp

/-- Every base-table row is some kept input row with a date column attached. -/
theorem mem_baseTable_structure {raws : List RawRow} {br : Row}
    (h : br ∈ baseTable raws) : ∃ r ∈ keptRows raws, ∃ dt, br = mkRow r dt := by
  unfold baseTable leftJoinDates at h
  rw [List.mem_flatMap] at h
  obtain ⟨r, hr, hbr⟩ := h
  refine ⟨r, hr, ?_⟩
  split at hbr
  · rw [List.mem_singleton] at hbr
    exact ⟨none, hbr⟩
  · rw [List.mem_map] at hbr
    obtain ⟨p, _, rfl⟩ := hbr
    exact ⟨p.2, rfl⟩

/-- Every kept input row is retained in the base table, paired with the
parse of its own timestamp. -/
theorem mkRow_mem_baseTable {raws : List RawRow} {r : InputRow}
    (h : r ∈ keptRows raws) :
    mkRow r (parseInvoiceDate r.invoiceDate) ∈ baseTable raws := by
  unfold baseTable leftJoinDates
  rw [List.mem_flatMap]
  refine ⟨r, h, ?_⟩
  have hself : (r.invoiceDate, parseInvoiceDate r.invoiceDate) ∈
      (datesTable (keptRows raws)).filter fun p => decide (p.1 = r.invoiceDate) := by
    rw [List.mem_filter]
    refine ⟨?_, by simp⟩
    unfold datesTable
    rw [List.mem_map]
    exact ⟨r, h, rfl⟩
  split
  · next hemp =>
    rw [List.isEmpty_iff] at hemp
    rw [hemp] at hself
    simp at hself
  · rw [List.mem_map]
    exact ⟨(r.invoiceDate, parseInvoiceDate r.invoiceDate), hself, rfl⟩

/-- Sales-only rows are base-table rows. -/
theorem salesOnly_subset_baseTable {raws : List RawRow} {r : Row}
    (h : r ∈ salesOnly raws) : r ∈ baseTable raws := by
  unfold salesOnly at h
  rw [List.mem_filter] at h
  rw [List.mem_filter] at h
  exact h.1.1

/-! ## Sample datasets used to witness and refute the claims -/

/-- Build a fully populated raw row. -/
def mkRaw (inv st de : String) (q : Int) (d : String) (p : Rat)
    (cu co : String) : RawRow :=
  ⟨some inv, some st, some de, some q, some d, some p, some cu, some co⟩

/-- The spec's round-trip scenario, extended with a foreign sale sharing a
date and a second French sale five days later: invoice `1002` is reversed by
return `C1002` on the full key, everything else survives. -/
def sampleRaws : List RawRow :=
  [mkRaw "1001" "W1" "Widget" 3 "12/01/2010 08:26" 2 "17850" "France",
   mkRaw "1002" "W1" "Widget" 2 "12/06/2010 09:00" 2 "17850" "France",
   mkRaw "C1002" "W1" "Widget" (-2) "12/06/2010 10:00" 2 "17850" "France",
   mkRaw "1003" "W1" "Widget" 4 "12/01/2010 11:00" 2 "17850" "Germany",
   mkRaw "1004" "W1" "Widget" 1 "12/06/2010 12:00" 2 "17850" "France"]

/-- One sale whose timestamp matches no known format. -/
def malformedDateRaws : List RawRow :=
  [mkRaw "1001" "W1" "Widget" 5 "not-a-date" 2 "17850" "France"]

/-- Two distinct retained rows sharing one raw timestamp string. -/
def dupTimestampRaws : List RawRow :=
  [mkRaw "1001" "W1" "Widget" 3 "12/01/2010 08:26" 2 "17850" "France",
   mkRaw "1001" "W2" "Gadget" 1 "12/01/2010 08:26" 5 "17850" "France"]

/-- The empty dataset. -/
def emptyRaws : List RawRow := []

/-! ## Claim C1: return classification and the sales/returns anti-join -/

/-- Claim C1: a base-table row belongs to the returns view iff its invoice
identifier starts with the return marker `C` (its original invoice being the
marker-stripped identifier); a non-return row is in `sales_only` iff no
return row carries its `(original invoice, stock code, customer id)` triple;
the exclusion is all-or-nothing per row, so no sales-only row shares that
triple with the returns-only set. -/
theorem c1_returns_classification_anti_join (raws : List RawRow) :
    (∀ t, t ∈ returnsOnly raws ↔ ∃ r ∈ baseTable raws,
      startsWithC r.invoiceNo = true ∧
      t = (stripReturnMarker r.invoiceNo, r.stockCode, r.customerID)) ∧
    (∀ r, r ∈ salesOnly raws ↔ r ∈ baseTable raws ∧
      startsWithC r.invoiceNo = false ∧
      (r.invoiceNo, r.stockCode, r.customerID) ∉ returnsOnly raws) ∧
    (∀ r ∈ salesOnly raws, ∀ t ∈ returnsOnly raws,
      t ≠ (r.invoiceNo, r.stockCode, r.customerID)) := by
  have h2 : ∀ r, r ∈ salesOnly raws ↔ r ∈ baseTable raws ∧
      startsWithC r.invoiceNo = false ∧
      (r.invoiceNo, r.stockCode, r.customerID) ∉ returnsOnly raws := by
    intro r
    simp only [salesOnly, List.mem_filter, Bool.not_eq_true', decide_eq_false_iff_not,
      and_assoc]
  refine ⟨?_, h2, ?_⟩
  · intro t
    simp only [returnsOnly, List.mem_map, List.mem_filter]
    constructor
    · rintro ⟨r, ⟨hb, hs⟩, he⟩
      exact ⟨r, hb, hs, he.symm⟩
    · rintro ⟨r, hb, hs, he⟩
      exact ⟨r, ⟨hb, hs⟩, he.symm⟩
  · intro r hr t ht heq
    rcases (h2 r).mp hr with ⟨-, -, hnot⟩
    exact hnot (heq ▸ ht)

/-- Witness for C1 on the sample dataset. -/
theorem c1_returns_classification_anti_join_witness :
    (∀ t, t ∈ returnsOnly sampleRaws ↔ ∃ r ∈ baseTable sampleRaws,
      startsWithC r.invoiceNo = true ∧
      t = (stripReturnMarker r.invoiceNo, r.stockCode, r.customerID)) ∧
    (∀ r, r ∈ salesOnly sampleRaws ↔ r ∈ baseTable sampleRaws ∧
      startsWithC r.invoiceNo = false ∧
      (r.invoiceNo, r.stockCode, r.customerID) ∉ returnsOnly sampleRaws) ∧
    (∀ r ∈ salesOnly sampleRaws, ∀ t ∈ returnsOnly sampleRaws,
      t ≠ (r.invoiceNo, r.stockCode, r.customerID)) :=
  c1_returns_classification_anti_join sampleRaws

/-! ## Claim C10: no nulls survive ingest -/

/-- Claim C10: every base-table row stems from a raw row all of whose input
columns — `CustomerID` included — are non-null (any row with a null was
dropped by `drop_nulls()` before derived fields were computed), and every
sales-only query row is such a base-table row. -/
theorem c10_no_nulls_after_load (raws : List RawRow) :
    (∀ br ∈ baseTable raws, ∃ rr ∈ raws,
      rr = ⟨some br.invoiceNo, some br.stockCode, some br.description,
        some br.quantity, some br.invoiceDate, some br.unitPrice,
        some br.customerID, some br.country⟩) ∧
    (∀ br ∈ salesOnly raws, br ∈ baseTable raws) := by
  constructor
  · intro br hbr
    obtain ⟨r, hr, dt, rfl⟩ := mem_baseTable_structure hbr
    rw [keptRows, List.mem_filterMap] at hr
    obtain ⟨rr, hrr, hinp⟩ := hr
    exact ⟨rr, hrr, toInput_fields hinp⟩
  · intro br hbr
    exact salesOnly_subset_baseTable hbr

/-- Witness for C10 on the sample dataset. -/
theorem c10_no_nulls_after_load_witness :
    (∀ br ∈ baseTable sampleRaws, ∃ rr ∈ sampleRaws,
      rr = ⟨some br.invoiceNo, some br.stockCode, some br.description,
        some br.quantity, some br.invoiceDate, some br.unitPrice,
        some br.customerID, some br.country⟩) ∧
    (∀ br ∈ salesOnly sampleRaws, br ∈ baseTable sampleRaws) :=
  c10_no_nulls_after_load sampleRaws

/-! ## Claim C4: the date join duplicates rows that share a timestamp -/

/-- Claim C4 (code bug): two retained input rows share the raw timestamp
string `"12/01/2010 08:26"`; the left join of the base frame with the
per-row dates frame on `InvoiceDate` then matches each of the two rows with
both dates rows, so the base table holds 4 rows where the claim promises
exactly one base row per retained input row (2). -/
theorem c4_join_duplicates_shared_timestamps :
    (keptRows dupTimestampRaws).length = 2 ∧
    (baseTable dupTimestampRaws).length = 4 := by
  with_unfolding_all decide

/-! ## A helper for composing the country/product filters with a group key -/

theorem filter_filter_decide {α : Type} (P Q R : α → Prop)
    [DecidablePred P] [DecidablePred Q] [DecidablePred R]
    (h : ∀ a, (P a ∧ Q a) ↔ R a) (l : List α) :
    ((l.filter fun a => decide (P a)).filter fun a => decide (Q a)) =
      l.filter fun a => decide (R a) := by
  rw [List.filter_filter]
  apply List.filter_congr
  intro x _
  rw [Bool.eq_iff_iff]
  simp only [Bool.and_eq_true, decide_eq_true_eq]
  constructor
  · rintro ⟨hq, hp⟩
    exact (h x).mp ⟨hp, hq⟩
  · intro hr
    obtain ⟨hp, hq⟩ := (h x).mpr hr
    exact ⟨hq, hp⟩

/-! ## Claim C2: the per-country quantity time series -/

/-- Claim C2 (amended): `get_country_quantity` returns exactly the sales-only
rows of (country, product) grouped by calendar date with quantities summed,
sorted ascending by date — but rows with a null `Date` are *not* excluded:
they form a null-keyed group of their own (polars `group_by` keeps null
keys), so a row with an unparseable timestamp does contribute a (null-dated)
point. -/
theorem c2_quantity_by_date_groups (raws : List RawRow) (country product : String) :
    List.Sorted dateRowLE (get_country_quantity raws country product) ∧
    ∀ od q, ((od, q) ∈ get_country_quantity raws country product ↔
      ((∃ r ∈ salesOnly raws, r.country = country ∧ r.description = product ∧
          r.date = od) ∧
        q = (((salesOnly raws).filter fun r =>
          decide (r.country = country ∧ r.description = product ∧ r.date = od)).map
            Row.quantity).sum)) := by
  constructor
  · exact List.sorted_insertionSort dateRowLE _
  · intro od q
    rw [get_country_quantity, List.mem_insertionSort, mem_groupSum,
      filter_filter_decide
        (fun r => r.country = country ∧ r.description = product)
        (fun r => r.date = od)
        (fun r => r.country = country ∧ r.description = product ∧ r.date = od)
        (fun r => by tauto) (salesOnly raws)]
    constructor
    · rintro ⟨⟨r, hr, hd⟩, rfl⟩
      rw [List.mem_filter, decide_eq_true_eq] at hr
      exact ⟨⟨r, hr.1, hr.2.1, hr.2.2, hd⟩, rfl⟩
    · rintro ⟨⟨r, hr, hc, hdp, hd⟩, rfl⟩
      refine ⟨⟨r, ?_, hd⟩, rfl⟩
      rw [List.mem_filter, decide_eq_true_eq]
      exact ⟨hr, hc, hdp⟩

/-- Counterexample to C2 as stated: the sale with timestamp `"not-a-date"`
is *not* excluded from `get_country_quantity` — it shows up as a null-dated
group — although it is retained in aggregate revenue totals. -/
theorem c2_null_date_group_counterexample :
    get_country_quantity malformedDateRaws "France" "Widget" = [(none, 5)] ∧
    ((baseTable malformedDateRaws).map Row.revenue).sum = 10 := by
  with_unfolding_all decide

/-- Witness for (amended) C2 on the malformed-date dataset, at the
null-dated group. -/
theorem c2_quantity_by_date_groups_witness :
    List.Sorted dateRowLE (get_country_quantity malformedDateRaws "France" "Widget") ∧
    ((none, (5 : Int)) ∈ get_country_quantity malformedDateRaws "France" "Widget" ↔
      ((∃ r ∈ salesOnly malformedDateRaws, r.country = "France" ∧
          r.description = "Widget" ∧ r.date = none) ∧
        (5 : Int) = (((salesOnly malformedDateRaws).filter fun r =>
          decide (r.country = "France" ∧ r.description = "Widget" ∧
            r.date = none)).map Row.quantity).sum)) :=
  ⟨(c2_quantity_by_date_groups malformedDateRaws "France" "Widget").1,
    (c2_quantity_by_date_groups malformedDateRaws "France" "Widget").2 none 5⟩

/-! ## Claim C5: top articles by revenue -/

/-- Claim C5: `revenue_per_article_per_country` returns at most 15 rows,
sorted non-increasing by summed revenue, and every returned description
belongs to a sales-only row of the country, its value being the sum of
`Revenue` over the country's sales-only rows with that description. -/
theorem c5_top_revenue_by_article (raws : List RawRow) (country : String) :
    (revenue_per_article_per_country raws country).length ≤ 15 ∧
    List.Sorted revDescLE (revenue_per_article_per_country raws country) ∧
    ∀ dr ∈ revenue_per_article_per_country raws country,
      (∃ r ∈ salesOnly raws, r.country = country ∧ r.description = dr.1) ∧
      dr.2 = (((salesOnly raws).filter fun r =>
        decide (r.country = country ∧ r.description = dr.1)).map Row.revenue).sum := by
  refine ⟨List.length_take_le _ _, ?_, ?_⟩
  · exact List.Pairwise.sublist (List.take_sublist _ _)
      (List.sorted_insertionSort revDescLE _)
  · rintro ⟨d, v⟩ hdr
    unfold revenue_per_article_per_country at hdr
    have hmem := List.mem_of_mem_take hdr
    rw [List.mem_insertionSort, mem_groupSum,
      filter_filter_decide
        (fun r => r.country = country)
        (fun r => r.description = d)
        (fun r => r.country = country ∧ r.description = d)
        (fun r => Iff.rfl) (salesOnly raws)] at hmem
    obtain ⟨⟨r, hr, hd⟩, rfl⟩ := hmem
    rw [List.mem_filter, decide_eq_true_eq] at hr
    exact ⟨⟨r, hr.1, hr.2, hd⟩, rfl⟩

/-- Witness for C5 on the sample dataset. -/
theorem c5_top_revenue_by_article_witness :
    (revenue_per_article_per_country sampleRaws "France").length ≤ 15 ∧
    List.Sorted revDescLE (revenue_per_article_per_country sampleRaws "France") ∧
    ∀ dr ∈ revenue_per_article_per_country sampleRaws "France",
      (∃ r ∈ salesOnly sampleRaws, r.country = "France" ∧ r.description = dr.1) ∧
      dr.2 = (((salesOnly sampleRaws).filter fun r =>
        decide (r.country = "France" ∧ r.description = dr.1)).map Row.revenue).sum :=
  c5_top_revenue_by_article sampleRaws "France"

/-! ## Claim C6: global series is aligned to the local date set -/

/-- Claim C6: every date of `get_global_quantity` also occurs in the date set
of `get_country_quantity` for the same (country, product), and every group
value sums only rows whose country differs from the focal country. -/
theorem c6_global_dates_subset (raws : List RawRow) (country product : String) :
    ∀ od q, (od, q) ∈ get_global_quantity raws country product →
      od ∈ (get_country_quantity raws country product).map Prod.fst ∧
      q = (((salesOnly raws).filter fun r =>
        decide (¬r.country = country ∧ r.description = product ∧ r.date = od)).map
          Row.quantity).sum := by
  intro od q hmem
  rw [get_global_quantity, List.mem_insertionSort, mem_groupSum] at hmem
  obtain ⟨⟨r, hr, hd⟩, rfl⟩ := hmem
  rw [List.mem_filter, decide_eq_true_eq] at hr
  have hcd : od ∈ (get_country_quantity raws country product).map Prod.fst :=
    hd ▸ hr.2.2.2
  refine ⟨hcd, ?_⟩
  rw [filter_filter_decide
    (fun r => ¬r.country = country ∧ r.description = product ∧
      r.date ∈ (get_country_quantity raws country product).map Prod.fst)
    (fun r => r.date = od)
    (fun r => ¬r.country = country ∧ r.description = product ∧ r.date = od)
    (fun r => by
      constructor
      · rintro ⟨⟨h1, h2, _⟩, h4⟩
        exact ⟨h1, h2, h4⟩
      · rintro ⟨h1, h2, h4⟩
        exact ⟨⟨h1, h2, h4 ▸ hcd⟩, h4⟩) (salesOnly raws)]

/-- Witness for C6 on the sample dataset, at the shared 2010-12-01 date. -/
theorem c6_global_dates_subset_witness :
    some (⟨2010, 12, 1⟩ : DateRec) ∈
      (get_country_quantity sampleRaws "France" "Widget").map Prod.fst ∧
    (4 : Int) = (((salesOnly sampleRaws).filter fun r =>
      decide (¬r.country = "France" ∧ r.description = "Widget" ∧
        r.date = some ⟨2010, 12, 1⟩)).map Row.quantity).sum :=
  c6_global_dates_subset sampleRaws "France" "Widget" (some ⟨2010, 12, 1⟩) 4
    (by with_unfolding_all decide)

/-! ## Claims C3 and C8: the revenue-share query

`total_revenue_vs_country` computes the dataset-wide revenue sum (polars
returns `0.0` for an empty sum), the country-restricted sum, and the
percentage string `f"{country/total*100:.2f}"`.  Python raises an unhandled
`ZeroDivisionError` at the division when the total is zero; the code
defines no other error path.  `PyError.emptyDatasetError` exists in the
model only so the spec's promised error can be talked about. -/

inductive PyError where
  | zeroDivisionError
  | emptyDatasetError
deriving DecidableEq, Repr

instance {ε α : Type} [DecidableEq ε] [DecidableEq α] :
    DecidableEq (Except ε α) := fun x y =>
  match x, y with
  | .error e, .error f =>
    if h : e = f then isTrue (by rw [h]) else isFalse (by simp [h])
  | .ok a, .ok b =>
    if h : a = b then isTrue (by rw [h]) else isFalse (by simp [h])
  | .error _, .ok _ => isFalse (by simp)
  | .ok _, .error _ => isFalse (by simp)

def digitChar : Nat → Char
  | 0 => '0'
  | 1 => '1'
  | 2 => '2'
  | 3 => '3'
  | 4 => '4'
  | 5 => '5'
  | 6 => '6'
  | 7 => '7'
  | 8 => '8'
  | _ => '9'

def natDigitsGo : Nat → Nat → List Char → List Char
  | 0, _, acc => acc
  | _ + 1, 0, acc => acc
  | fuel + 1, n + 1, acc =>
    natDigitsGo fuel ((n + 1) / 10) (digitChar ((n + 1) % 10) :: acc)

/-- Decimal digits of a natural number, most significant first. -/
def natDigits (n : Nat) : List Char :=
  if n = 0 then ['0'] else natDigitsGo (n + 1) n []

/-- Round to the nearest integer, ties to even (the rounding Python's
fixed-point formatting applies). -/
def roundHalfEven (q : Rat) : Int :=
  if q - ⌊q⌋ < 1 / 2 then ⌊q⌋
  else if 1 / 2 < q - ⌊q⌋ then ⌊q⌋ + 1
  else if ⌊q⌋ % 2 = 0 then ⌊q⌋ else ⌊q⌋ + 1

/-- Python's `f"{q:.2f}"`: sign, integer digits, a point, two fraction
digits. -/
def formatFixed2 (q : Rat) : String :=
  String.mk (((if q < 0 then ['-'] else []) ++
      natDigits ((roundHalfEven (q * 100)).natAbs / 100)) ++
    '.' :: digitChar ((roundHalfEven (q * 100)).natAbs % 100 / 10) ::
      [digitChar ((roundHalfEven (q * 100)).natAbs % 10)])

/-- The string has exactly two characters after its unique decimal point,
both digits. -/
def twoDecimalPlaces (s : String) : Bool :=
  match s.data.reverse with
  | b :: a :: c :: rest => a.isDigit && b.isDigit && c == '.' && decide ('.' ∉ rest)
  | _ => false

/-- The essential payload of the frame `total_revenue_vs_country` builds:
both absolute revenues and the formatted percentage string. -/
structure RevShareResult where
  totalRevenue : Rat
  countryRevenue : Rat
  countryPerc : String
deriving DecidableEq, Repr

/-- Model of `total_revenue_vs_country`, with the Python `ZeroDivisionError` made
explicit in the return type. -/
def total_revenue_vs_country (raws : List RawRow) (country : String) :
    Except PyError RevShareResult :=
  if ((baseTable raws).map Row.revenue).sum = 0 then
    Except.error PyError.zeroDivisionError
  else
    Except.ok
      ⟨((baseTable raws).map Row.revenue).sum,
        (((baseTable raws).filter fun r => decide (r.country = country)).map
          Row.revenue).sum,
        formatFixed2 ((((baseTable raws).filter fun r =>
            decide (r.country = country)).map Row.revenue).sum /
          ((baseTable raws).map Row.revenue).sum * 100)⟩

/-! ### Formatting facts -/

theorem digitChar_isDigit (n : Nat) : (digitChar n).isDigit = true := by
  match n with
  | 0 => rfl
  | 1 => rfl
  | 2 => rfl
  | 3 => rfl
  | 4 => rfl
  | 5 => rfl
  | 6 => rfl
  | 7 => rfl
  | 8 => rfl
  | _ + 9 => rfl

theorem natDigitsGo_digits (fuel : Nat) :
    ∀ n acc, (∀ c ∈ acc, Char.isDigit c = true) →
      ∀ c ∈ natDigitsGo fuel n acc, Char.isDigit c = true := by
  induction fuel with
  | zero => exact fun n acc hacc c hc => hacc c hc
  | succ fuel ih =>
    intro n acc hacc c hc
    cases n with
    | zero => exact hacc c hc
    | succ n =>
      refine ih ((n + 1) / 10) (digitChar ((n + 1) % 10) :: acc) ?_ c hc
      intro x hx
      rcases List.mem_cons.mp hx with h | h
      · exact h ▸ digitChar_isDigit _
      · exact hacc x h

theorem natDigits_digits (n : Nat) : ∀ c ∈ natDigits n, Char.isDigit c = true := by
  intro c hc
  unfold natDigits at hc
  split at hc
  · rw [List.mem_singleton] at hc
    exact hc ▸ rfl
  · exact natDigitsGo_digits _ _ _ (by intro x hx; exact absurd hx (List.not_mem_nil x)) c hc

theorem twoDecimalPlaces_append (pre : List Char) (c1 c2 : Char)
    (h1 : c1.isDigit = true) (h2 : c2.isDigit = true)
    (hpre : ∀ c ∈ pre, c ≠ '.') :
    twoDecimalPlaces (String.mk (pre ++ '.' :: c1 :: [c2])) = true := by
  unfold twoDecimalPlaces
  have hrev : (String.mk (pre ++ '.' :: c1 :: [c2])).data.reverse =
      c2 :: c1 :: '.' :: pre.reverse := by
    simp
  rw [hrev]
  show (c1.isDigit && c2.isDigit && ('.' == '.') && decide ('.' ∉ pre.reverse)) = true
  simp only [h1, h2, Bool.true_and, beq_self_eq_true, Bool.and_eq_true,
    decide_eq_true_eq, List.mem_reverse]
  exact fun h => hpre '.' h rfl

theorem formatFixed2_twoDecimalPlaces (q : Rat) :
    twoDecimalPlaces (formatFixed2 q) = true := by
  unfold formatFixed2
  apply twoDecimalPlaces_append
  · exact digitChar_isDigit _
  · exact digitChar_isDigit _
  · intro c hc
    rcases List.mem_append.mp hc with h | h
    · intro hdot
      subst hdot
      revert h
      split
      · intro h
        rw [List.mem_singleton] at h
        exact absurd h (by decide)
      · intro h
        exact absurd h (List.not_mem_nil _)
    · have hd := natDigits_digits _ c h
      intro hdot
      subst hdot
      exact absurd hd (by decide)

/-! ### Claim C3 -/

/-- Counterexample to C3 as stated: on the empty dataset the query fails
with an unhandled `ZeroDivisionError` — not with the reportable
`EmptyDatasetError` the claim promises (the code defines no such error). -/
theorem c3_empty_dataset_counterexample :
    total_revenue_vs_country emptyRaws "France" =
      Except.error PyError.zeroDivisionError ∧
    total_revenue_vs_country emptyRaws "France" ≠
      Except.error PyError.emptyDatasetError := by
  with_unfolding_all decide

/-- Claim C3 (amended): whenever the dataset-wide revenue denominator is zero
(in particular on the empty store), `total_revenue_vs_country` crashes with
an unhandled `ZeroDivisionError`; no `EmptyDatasetError` exists in the
code. -/
theorem c3_zero_total_revenue_crashes (raws : List RawRow) (country : String)
    (h : ((baseTable raws).map Row.revenue).sum = 0) :
    total_revenue_vs_country raws country =
      Except.error PyError.zeroDivisionError := by
  unfold total_revenue_vs_country
  rw [if_pos h]

/-- Witness for (amended) C3 on the empty dataset. -/
theorem c3_zero_total_revenue_crashes_witness :
    ((baseTable emptyRaws).map Row.revenue).sum = 0 ∧
    total_revenue_vs_country emptyRaws "Germany" =
      Except.error PyError.zeroDivisionError :=
  ⟨by with_unfolding_all decide,
    c3_zero_total_revenue_crashes emptyRaws "Germany" (by with_unfolding_all decide)⟩

/-! ### Claim C8 -/

/-- Claim C8: with a nonzero denominator, `RevenueShare` takes its total over
the *entire* base table (sales and returns alike, not sales-only), its
country revenue over all rows of the country, and returns both absolute
values together with the percentage `country / total × 100` formatted to
exactly two decimal places. -/
theorem c8_revenue_share_components (raws : List RawRow) (country : String)
    (h : ((baseTable raws).map Row.revenue).sum ≠ 0) :
    ∃ res : RevShareResult,
      total_revenue_vs_country raws country = Except.ok res ∧
      res.totalRevenue = ((baseTable raws).map Row.revenue).sum ∧
      res.countryRevenue = (((baseTable raws).filter fun r =>
        decide (r.country = country)).map Row.revenue).sum ∧
      res.countryPerc =
        formatFixed2 (res.countryRevenue / res.totalRevenue * 100) ∧
      twoDecimalPlaces res.countryPerc = true := by
  refine ⟨⟨((baseTable raws).map Row.revenue).sum,
    (((baseTable raws).filter fun r => decide (r.country = country)).map
      Row.revenue).sum,
    formatFixed2 ((((baseTable raws).filter fun r =>
        decide (r.country = country)).map Row.revenue).sum /
      ((baseTable raws).map Row.revenue).sum * 100)⟩,
    ?_, rfl, rfl, rfl, formatFixed2_twoDecimalPlaces _⟩
  unfold total_revenue_vs_country
  rw [if_neg h]

/-- Witness for C8 on the sample dataset (total 16, France 8, share
`"50.00"`). -/
theorem c8_revenue_share_components_witness :
    ((baseTable sampleRaws).map Row.revenue).sum ≠ 0 ∧
    (∃ res : RevShareResult,
      total_revenue_vs_country sampleRaws "France" = Except.ok res ∧
      res.totalRevenue = ((baseTable sampleRaws).map Row.revenue).sum ∧
      res.countryRevenue = (((baseTable sampleRaws).filter fun r =>
        decide (r.country = "France")).map Row.revenue).sum ∧
      res.countryPerc =
        formatFixed2 (res.countryRevenue / res.totalRevenue * 100) ∧
      twoDecimalPlaces res.countryPerc = true) :=
  ⟨by with_unfolding_all decide,
    c8_revenue_share_components sampleRaws "France" (by with_unfolding_all decide)⟩

/-- The concrete values behind the C8 witness: on the sample store the
query reports a global total of 16, a France total of 8, and the share
string `"50.00"`. -/
theorem revenue_share_sample_values :
    total_revenue_vs_country sampleRaws "France" =
      Except.ok ⟨16, 8, "50.00"⟩ := by
  with_unfolding_all decide

/-! ## Claim C7: the date-parsing policy -/

/-- Claim C7: parsing tries the fixed ordered format list; the first matching
format determines the parsed value (order-sensitive and deterministic); when
no format matches, both `DateTime` and `Date` are null and the row is still
retained in the base table. -/
theorem c7_date_parsing_policy (raws : List RawRow) (s : String) :
    (∀ d, parseFmt1 s = some d → parseInvoiceDate s = some d) ∧
    (parseFmt1 s = none → parseInvoiceDate s = parseFmt2 s) ∧
    (parseInvoiceDate s = none ↔ parseFmt1 s = none ∧ parseFmt2 s = none) ∧
    (∀ r ∈ keptRows raws, parseInvoiceDate r.invoiceDate = none →
      mkRow r none ∈ baseTable raws ∧ (mkRow r none).dateTime = none ∧
        (mkRow r none).date = none) := by
  have hstep : ∀ t : String, parseInvoiceDate t =
      match parseFmt1 t with
      | some d => some d
      | none =>
        match parseFmt2 t with
        | some d => some d
        | none => none := by
    intro t
    rfl
  refine ⟨?_, ?_, ?_, ?_⟩
  · intro d h
    rw [hstep s, h]
  · intro h
    rw [hstep s, h]
    cases parseFmt2 s <;> rfl
  · rw [hstep s]
    cases h1 : parseFmt1 s <;> cases h2 : parseFmt2 s <;> simp
  · intro r hr hparse
    have hmem := mkRow_mem_baseTable hr
    rw [hparse] at hmem
    exact ⟨hmem, rfl, rfl⟩

/-- Witness for C7 at the unparseable timestamp `"not-a-date"`. -/
theorem c7_date_parsing_policy_witness :
    (∀ d, parseFmt1 "not-a-date" = some d →
      parseInvoiceDate "not-a-date" = some d) ∧
    (parseFmt1 "not-a-date" = none →
      parseInvoiceDate "not-a-date" = parseFmt2 "not-a-date") ∧
    (parseInvoiceDate "not-a-date" = none ↔
      parseFmt1 "not-a-date" = none ∧ parseFmt2 "not-a-date" = none) ∧
    (∀ r ∈ keptRows malformedDateRaws, parseInvoiceDate r.invoiceDate = none →
      mkRow r none ∈ baseTable malformedDateRaws ∧
        (mkRow r none).dateTime = none ∧ (mkRow r none).date = none) :=
  c7_date_parsing_policy malformedDateRaws "not-a-date"

/-! ## Claim C9: the extended x-axis bound of the time-series chart -/

/-- Days before the first day of month `m` in year `y`. -/
def daysBeforeMonth (y m : Nat) : Nat :=
  (List.range (m - 1)).foldl (fun acc i => acc + daysInMonth y (i + 1)) 0

/-- Python's `date.toordinal()`: the proleptic-Gregorian day number, with
0001-01-01 as day 1. -/
def dateOrdinal (d : DateRec) : Nat :=
  365 * (d.year - 1) + (d.year - 1) / 4 - (d.year - 1) / 100 +
    (d.year - 1) / 400 + daysBeforeMonth d.year d.month + d.day

/-- The dashboard's `to_datetime_safe`, measured in days: a date becomes
its midnight datetime, a null becomes `datetime(2000, 1, 1)`.  (The rational
is built with `mkRat` — the same value as the plain cast of the ordinal.) -/
def toDatetimeSafe : Option DateRec → Rat
  | none => mkRat (Int.ofNat (dateOrdinal ⟨2000, 1, 1⟩)) 1
  | some d => mkRat (Int.ofNat (dateOrdinal d)) 1

/-- Python's `min(l)`, with the default the code supplies for an empty
list. -/
def pyMin {α : Type} [Min α] (dflt : α) : List α → α
  | [] => dflt
  | x :: xs => xs.foldl min x

/-- Python's `max(l)`, with the default the code supplies for an empty
list. -/
def pyMax {α : Type} [Max α] (dflt : α) : List α → α
  | [] => dflt
  | x :: xs => xs.foldl max x

/-- The payload `Dashboard.plot_article_timeseries` hands to the chart. -/
structure TsData where
  country_dates : List Rat
  country_qty : List Int
  global_dates : List Rat
  global_qty : List Int
  first_date : Rat
  last_date : Rat
  extended_date : Rat
  y_max : Int
deriving DecidableEq, Repr

/-- Model of `Dashboard.plot_article_timeseries`.  Here `today` stands for
`datetime.today()`, which the code uses only when both series are empty.
`extended_date` follows `last_date + timedelta(days=int((last_date -
first_date).days * 0.1))`: the whole-day span (`timedelta.days`, a floor),
times 0.1, truncated by `int(...)` to a whole number of days — with exact
rational arithmetic standing in for the float multiplication. -/
def plot_article_timeseries (today : Rat) (raws : List RawRow)
    (country product : String) : TsData :=
  let cdf := get_country_quantity raws country product
  let gdf := get_global_quantity raws country product
  let country_dates := cdf.map fun p => toDatetimeSafe p.1
  let global_dates := gdf.map fun p => toDatetimeSafe p.1
  let country_qty := cdf.map Prod.snd
  let global_qty := gdf.map Prod.snd
  let first_date := pyMin today (country_dates ++ global_dates)
  let last_date := pyMax today (country_dates ++ global_dates)
  { country_dates := country_dates
    country_qty := country_qty
    global_dates := global_dates
    global_qty := global_qty
    first_date := first_date
    last_date := last_date
    extended_date := last_date + ((⌊last_date - first_date⌋.toNat / 10 : Nat) : Rat)
    y_max := pyMax 0 (country_qty ++ global_qty) }

theorem foldl_min_le (x : Rat) (xs : List Rat) :
    ∀ y ∈ x :: xs, xs.foldl min x ≤ y := by
  induction xs generalizing x with
  | nil =>
    intro y hy
    rw [List.mem_singleton] at hy
    exact hy ▸ le_refl x
  | cons a xs ih =>
    intro y hy
    rcases List.mem_cons.mp hy with rfl | hy2
    · exact le_trans (ih (min y a) (min y a) (List.mem_cons_self _ _))
        (min_le_left y a)
    · rcases List.mem_cons.mp hy2 with rfl | hy3
      · exact le_trans (ih (min x y) (min x y) (List.mem_cons_self _ _))
          (min_le_right x y)
      · exact ih (min x a) y (List.mem_cons.mpr (Or.inr hy3))

theorem foldl_min_mem (x : Rat) (xs : List Rat) : xs.foldl min x ∈ x :: xs := by
  induction xs generalizing x with
  | nil => exact List.mem_singleton.mpr rfl
  | cons a xs ih =>
    show xs.foldl min (min x a) ∈ x :: a :: xs
    have h := ih (min x a)
    rcases List.mem_cons.mp h with heq | hmem
    · rw [heq]
      rcases min_choice x a with hc | hc <;> rw [hc]
      · exact List.mem_cons_self _ _
      · exact List.mem_cons.mpr (Or.inr (List.mem_cons_self _ _))
    · exact List.mem_cons.mpr (Or.inr (List.mem_cons.mpr (Or.inr hmem)))

theorem foldl_max_ge (x : Rat) (xs : List Rat) :
    ∀ y ∈ x :: xs, y ≤ xs.foldl max x := by
  induction xs generalizing x with
  | nil =>
    intro y hy
    rw [List.mem_singleton] at hy
    exact hy ▸ le_refl x
  | cons a xs ih =>
    intro y hy
    rcases List.mem_cons.mp hy with rfl | hy2
    · exact le_trans (le_max_left y a)
        (ih (max y a) (max y a) (List.mem_cons_self _ _))
    · rcases List.mem_cons.mp hy2 with rfl | hy3
      · exact le_trans (le_max_right x y)
          (ih (max x y) (max x y) (List.mem_cons_self _ _))
      · exact ih (max x a) y (List.mem_cons.mpr (Or.inr hy3))

theorem foldl_max_mem (x : Rat) (xs : List Rat) : xs.foldl max x ∈ x :: xs := by
  induction xs generalizing x with
  | nil => exact List.mem_singleton.mpr rfl
  | cons a xs ih =>
    show xs.foldl max (max x a) ∈ x :: a :: xs
    have h := ih (max x a)
    rcases List.mem_cons.mp h with heq | hmem
    · rw [heq]
      rcases max_choice x a with hc | hc <;> rw [hc]
      · exact List.mem_cons_self _ _
      · exact List.mem_cons.mpr (Or.inr (List.mem_cons_self _ _))
    · exact List.mem_cons.mpr (Or.inr (List.mem_cons.mpr (Or.inr hmem)))

/-- Counterexample to C9 as stated: on the sample store the union of the
series dates spans 5 whole days, so the code extends the axis by
`int(5 * 0.1) = 0` days and `extended_date = last_date`, not the
`last_date + 0.5` days that `last_date + 0.1 × (last_date − first_date)`
demands. -/
theorem c9_extension_truncated_counterexample :
    (plot_article_timeseries 0 sampleRaws "France" "Widget").last_date -
      (plot_article_timeseries 0 sampleRaws "France" "Widget").first_date = 5 ∧
    (plot_article_timeseries 0 sampleRaws "France" "Widget").extended_date -
      (plot_article_timeseries 0 sampleRaws "France" "Widget").last_date = 0 ∧
    ((plot_article_timeseries 0 sampleRaws "France" "Widget").last_date +
        (1 / 10) *
          ((plot_article_timeseries 0 sampleRaws "France" "Widget").last_date -
            (plot_article_timeseries 0 sampleRaws "France" "Widget").first_date)) -
      (plot_article_timeseries 0 sampleRaws "France" "Widget").extended_date =
        1 / 2 := by
  with_unfolding_all decide

/-- Claim C9 (amended): over a non-empty union of the local and global series
dates, `first_date`/`last_date` are the minimum/maximum of the union, and
the extended x-axis bound is `last_date` plus `int(0.1 × d)` whole days
where `d` is the whole-day span `(last_date − first_date).days` — i.e. the
10% extension is truncated to whole days (zero when the span is below 10
days), not the exact `0.1 × (last_date − first_date)` of the claim. -/
theorem c9_extended_axis_bound (today : Rat) (raws : List RawRow)
    (country product : String)
    (h : (plot_article_timeseries today raws country product).country_dates ++
      (plot_article_timeseries today raws country product).global_dates ≠ []) :
    ((plot_article_timeseries today raws country product).first_date ∈
      (plot_article_timeseries today raws country product).country_dates ++
        (plot_article_timeseries today raws country product).global_dates) ∧
    (∀ d ∈ (plot_article_timeseries today raws country product).country_dates ++
        (plot_article_timeseries today raws country product).global_dates,
      (plot_article_timeseries today raws country product).first_date ≤ d) ∧
    ((plot_article_timeseries today raws country product).last_date ∈
      (plot_article_timeseries today raws country product).country_dates ++
        (plot_article_timeseries today raws country product).global_dates) ∧
    (∀ d ∈ (plot_article_timeseries today raws country product).country_dates ++
        (plot_article_timeseries today raws country product).global_dates,
      d ≤ (plot_article_timeseries today raws country product).last_date) ∧
    (plot_article_timeseries today raws country product).extended_date =
      (plot_article_timeseries today raws country product).last_date +
        ((⌊(plot_article_timeseries today raws country product).last_date -
          (plot_article_timeseries today raws country product).first_date⌋.toNat /
            10 : Nat) : Rat) := by
  have hfirst : (plot_article_timeseries today raws country product).first_date =
      pyMin today ((plot_article_timeseries today raws country product).country_dates ++
        (plot_article_timeseries today raws country product).global_dates) := rfl
  have hlast : (plot_article_timeseries today raws country product).last_date =
      pyMax today ((plot_article_timeseries today raws country product).country_dates ++
        (plot_article_timeseries today raws country product).global_dates) := rfl
  have hext : (plot_article_timeseries today raws country product).extended_date =
      (plot_article_timeseries today raws country product).last_date +
        ((⌊(plot_article_timeseries today raws country product).last_date -
          (plot_article_timeseries today raws country product).first_date⌋.toNat /
            10 : Nat) : Rat) := rfl
  rw [hfirst, hlast]
  cases hl : (plot_article_timeseries today raws country product).country_dates ++
      (plot_article_timeseries today raws country product).global_dates with
  | nil => exact absurd hl h
  | cons x xs =>
    refine ⟨?_, ?_, ?_, ?_, ?_⟩
    · exact foldl_min_mem x xs
    · exact foldl_min_le x xs
    · exact foldl_max_mem x xs
    · exact foldl_max_ge x xs
    · rw [← hl, ← hfirst, ← hlast]
      exact hext

/-- Witness for (amended) C9 on the sample store. -/
theorem c9_extended_axis_bound_witness :
    ((plot_article_timeseries 0 sampleRaws "France" "Widget").country_dates ++
      (plot_article_timeseries 0 sampleRaws "France" "Widget").global_dates ≠ []) ∧
    (plot_article_timeseries 0 sampleRaws "France" "Widget").extended_date =
      (plot_article_timeseries 0 sampleRaws "France" "Widget").last_date +
        ((⌊(plot_article_timeseries 0 sampleRaws "France" "Widget").last_date -
          (plot_article_timeseries 0 sampleRaws "France" "Widget").first_date⌋.toNat /
            10 : Nat) : Rat) :=
  ⟨by with_unfolding_all decide,
    (c9_extended_axis_bound 0 sampleRaws "France" "Widget"
      (by with_unfolding_all decide)).2.2.2.2⟩

end ECom
